import Mathlib

/-!
# Verification of the MarketDataFrame repository (src/DataFrame.h)

A shallow embedding of the two classes of `DataFrame.h`:

* `Data` (the "Row Store"): a two-level associative container
  asset name → feature name → value, backed in C++ by nested
  `std::unordered_map`s.  We model each `unordered_map` as an association
  list with first-occurrence lookup (`findVal`); iteration order of the
  hash map is unspecified in C++ and nothing proved here depends on the
  order in which bindings are stored.

* `DataFrame` (the "Table"): `formats` (a vector of date-parsing
  facets, modelled as parse functions `String → Option PTime`),
  `assetsToFeatures` (`unordered_map<string, unordered_set<string>>`,
  modelled as an association list of deduplicated feature lists), and
  `data` (`std::map<bpt::ptime, Data<T>>`, modelled as an association
  list sorted strictly by key).

`boost::posix_time::ptime` is modelled by `PTime`: either the
default-constructed invalid value `not_a_date_time` (the result of
`bpt::ptime()`) or a calendar timestamp.  `std::map` requires a strict
total order on keys; we order `PTime` lexicographically with the invalid
value as the distinguished least element.

File input cannot be embedded directly: `fromCSV` receives
`Option (List (List String))` — `none` models a path whose `ifstream`
fails to open, and `some rows` models the file's physical lines after
the sanitization (`invalidCharLambda`) and `boost::tokenizer` splitting
performed by the C++ code, i.e. each line is given as its token list.
The claims under verification do not depend on the character-level
tokenizer grammar.

C++ exceptional control flow is made explicit by `Outcome`.  Every
member of both classes is declared `noexcept`, so no exception can ever
reach a caller: an exception thrown inside such a member calls
`std::terminate`.  That covers both the deliberate
`throw std::exception()` of the unopenable-file path of `fromCSV`
(modelled by `Outcome.fileOpenTerminate`) and the `std::out_of_range`
of a checked `.at` access (modelled by `Outcome.terminated`); the two
constructors are kept apart because the paths print different
diagnostics before dying, but neither is catchable and neither leaves
an observable table behind.
-/

/-- A calendar timestamp (the date-and-time payload of a valid
`boost::posix_time::ptime`). -/
structure Timestamp where
  year : Nat
  month : Nat
  day : Nat
  hour : Nat
  minute : Nat
  second : Nat
deriving DecidableEq, Repr

/-- Model of `boost::posix_time::ptime`: the default-constructed value
`bpt::ptime()` is the special `not_a_date_time`, every other value holds
a calendar timestamp. -/
inductive PTime where
  | notADateTime : PTime
  | val (t : Timestamp) : PTime
deriving DecidableEq, Repr

instance : Inhabited PTime := ⟨PTime.notADateTime⟩

/-- Key used to order `PTime` values in the `std::map`: lexicographic on
(validity tag, year, month, day, hour, minute, second), which puts
`not_a_date_time` strictly below every valid timestamp. -/
def PTime.key : PTime → Lex (Nat × Lex (Nat × Lex (Nat × Lex (Nat × Lex (Nat × Lex (Nat × Nat))))))
  | .notADateTime => toLex (0, toLex (0, toLex (0, toLex (0, toLex (0, toLex (0, 0))))))
  | .val t => toLex (1, toLex (t.year, toLex (t.month, toLex (t.day, toLex (t.hour, toLex (t.minute, t.second))))))

theorem PTime.key_injective : Function.Injective PTime.key := by
  intro a b h
  cases a with
  | notADateTime =>
    cases b with
    | notADateTime => rfl
    | val t =>
      have h1 := congrArg (fun x => (ofLex x).1) h
      simp only [PTime.key, ofLex_toLex] at h1
      exact absurd h1 (by decide)
  | val s =>
    cases b with
    | notADateTime =>
      have h1 := congrArg (fun x => (ofLex x).1) h
      simp only [PTime.key, ofLex_toLex] at h1
      exact absurd h1 (by decide)
    | val t =>
      simp only [PTime.key, toLex_inj, Prod.mk.injEq] at h
      obtain ⟨-, h1, h2, h3, h4, h5, h6⟩ := h
      cases s; cases t; simp_all

instance : LinearOrder PTime := LinearOrder.lift' PTime.key PTime.key_injective

/-! ## Association-list model of the C++ hash / tree maps

`findVal` models `find`/`at` (first matching binding wins), `updateVal`
models in-place mutation of the mapped value of an existing binding. -/

/-- Lookup of the first binding of key `k` (models `map.find(k)`). -/
def findVal {α : Type} (k : String) : List (String × α) → Option α
  | [] => none
  | (k', v) :: rest => if k' = k then some v else findVal k rest

/-- Replace the mapped value of the first binding of key `k` (models
mutating `map.at(k)` in place); other bindings are untouched. -/
def updateVal {α : Type} (k : String) (v : α) : List (String × α) → List (String × α)
  | [] => []
  | (k', v') :: rest => if k' = k then (k', v) :: rest else (k', v') :: updateVal k v rest

/-! ## The Row Store: class `Data<T>` (DataFrame.h lines 41-180, 481-563) -/

/-- `Data<T>`: `std::unordered_map<std::string, std::unordered_map<std::string, T>> data`,
i.e. {asset : {feature : value}}. -/
structure Data (T : Type) where
  data : List (String × List (String × T))
deriving DecidableEq

namespace Data

/-- `Data<T>::Data()`: the default constructor creates an empty object. -/
def emptyData (T : Type) : Data T := ⟨[]⟩

/-- `Data<T>::size()`: number of assets (keys) held. -/
def size {T : Type} (d : Data T) : Nat := d.data.length

/-- `Data<T>::empty()`. -/
def empty {T : Type} (d : Data T) : Bool := d.data.isEmpty

/-- `Data<T>::setData(asset, feature, val)` (lines 519-531): if `asset`
is absent, emplace `{asset : {feature : val}}`; otherwise if `feature`
is absent from the asset's map, emplace `(feature, val)` there;
otherwise do nothing.  Never overwrites an existing entry. -/
def setData {T : Type} (d : Data T) (asset feature : String) (val : T) : Data T :=
  match findVal asset d.data with
  | none => ⟨(asset, [(feature, val)]) :: d.data⟩
  | some type_map =>
    match findVal feature type_map with
    | none => ⟨updateVal asset ((feature, val) :: type_map) d.data⟩
    | some _ => d

/-- `Data<T>::getData(asset, feature)` (lines 536-549): the stored value
when both keys exist, otherwise a value-initialized `T` (its
default/zero value). -/
def getData {T : Type} [Inhabited T] (d : Data T) (asset feature : String) : T :=
  if d.data.isEmpty then default
  else
    match findVal asset d.data with
    | some type_map =>
      match findVal feature type_map with
      | some v => v
      | none => default
    | none => default

/-- The bindings actually reachable by lookups: `lookupPair d A F` is
`some v` exactly when `getData` would find the stored value `v`. -/
def lookupPair {T : Type} (d : Data T) (asset feature : String) : Option T :=
  match findVal asset d.data with
  | some type_map => findVal feature type_map
  | none => none

end Data

/-! ## Calendar helpers (Gregorian rules, used by the date parsers and
by the reference day-of-week function) -/

/-- Gregorian leap-year rule. -/
def isLeapYear (y : Nat) : Bool := (y % 4 == 0 && y % 100 != 0) || y % 400 == 0

/-- Length of month `m` of year `y`. -/
def daysInMonth (y m : Nat) : Nat :=
  if m = 2 then (if isLeapYear y then 29 else 28)
  else if m = 4 ∨ m = 6 ∨ m = 9 ∨ m = 11 then 30
  else 31

/-- A calendar date acceptable to `boost::gregorian` (years 1400-9999). -/
def validDate (y m d : Nat) : Bool :=
  1400 ≤ y && y ≤ 9999 && 1 ≤ m && m ≤ 12 && 1 ≤ d && d ≤ daysInMonth y m

/-! ## The default date formats (DataFrame.h lines 215-218)

Modelled from the spec: `boost::posix_time::time_input_facet` is an
external library facility whose source is not part of this repository.
Each facet is modelled as a parse function `String → Option PTime`
returning `some` exactly when the stream extraction succeeds: a prefix
of the text matching the pattern and denoting a valid calendar date
(extra trailing characters are ignored, as stream extraction stops at
the end of the pattern). -/

/-- Consume up to `n` leading decimal digits. -/
def takeDigits : Nat → List Char → (List Char × List Char)
  | 0, cs => ([], cs)
  | _ + 1, [] => ([], [])
  | n + 1, c :: cs =>
    if c.isDigit then
      let p := takeDigits n cs
      (c :: p.1, p.2)
    else ([], c :: cs)

/-- Value of a digit string. -/
def digitsToNat (ds : List Char) : Nat :=
  ds.foldl (fun acc c => acc * 10 + (c.toNat - 48)) 0

/-- Read a 1-to-`n` digit number. -/
def readNum (n : Nat) (cs : List Char) : Option (Nat × List Char) :=
  let p := takeDigits n cs
  if p.1.isEmpty then none else some (digitsToNat p.1, p.2)

/-- Require a specific literal character. -/
def expectChar (c : Char) : List Char → Option (List Char)
  | [] => none
  | c' :: cs => if c' = c then some cs else none

/-- Parse `%Y-%m-%d` off the front of the character list. -/
def parseDatePrefix (cs : List Char) : Option (Timestamp × List Char) :=
  (readNum 4 cs).bind fun py =>
  (expectChar '-' py.2).bind fun cs2 =>
  (readNum 2 cs2).bind fun pm =>
  (expectChar '-' pm.2).bind fun cs4 =>
  (readNum 2 cs4).bind fun pd =>
  if validDate py.1 pm.1 pd.1 then some (⟨py.1, pm.1, pd.1, 0, 0, 0⟩, pd.2) else none

/-- The `"%Y-%m-%d"` facet. -/
def fmtYMD (s : String) : Option PTime :=
  (parseDatePrefix s.toList).map fun p => PTime.val p.1

/-- Parse `%H:%M` off the front of the character list. -/
def parseHMPrefix (cs : List Char) : Option (Nat × Nat × List Char) :=
  (readNum 2 cs).bind fun ph =>
  (expectChar ':' ph.2).bind fun cs2 =>
  (readNum 2 cs2).bind fun pm =>
  if ph.1 < 24 && pm.1 < 60 then some (ph.1, pm.1, pm.2) else none

/-- The `"%Y-%m-%d %H:%M"` facet. -/
def fmtYMDHM (s : String) : Option PTime :=
  (parseDatePrefix s.toList).bind fun pt =>
  (expectChar ' ' pt.2).bind fun cs1 =>
  (parseHMPrefix cs1).map fun ph =>
  PTime.val { pt.1 with hour := ph.1, minute := ph.2.1 }

/-- The `"%Y-%m-%d %H:%M:%S"` facet. -/
def fmtYMDHMS (s : String) : Option PTime :=
  (parseDatePrefix s.toList).bind fun pt =>
  (expectChar ' ' pt.2).bind fun cs1 =>
  (parseHMPrefix cs1).bind fun ph =>
  (expectChar ':' ph.2.2).bind fun cs2 =>
  (readNum 2 cs2).bind fun ps =>
  if ps.1 < 61 then some (PTime.val { pt.1 with hour := ph.1, minute := ph.2.1, second := ps.1 }) else none

/-- The three default formats the `formats` vector is initialized with
(DataFrame.h lines 215-218), in declaration order. -/
def defaultFormats : List (String → Option PTime) := [fmtYMD, fmtYMDHM, fmtYMDHMS]

/-- The timestamp-parsing loop of `fromCSV` (DataFrame.h lines 683-689):
`date` starts as `bpt::ptime()` (= `not_a_date_time`); each format is
tried in order, a successful extraction overwrites `date`, and the loop
breaks as soon as `date` is no longer the default value. -/
def parseDate : List (String → Option PTime) → String → PTime
  | [], _ => PTime.notADateTime
  | f :: fs, s =>
    match f s with
    | some d => if d = PTime.notADateTime then parseDate fs s else d
    | none => parseDate fs s

/-! ## Ordered-map model of `std::map<bpt::ptime, Data<T>>` -/

section OrderedMap

variable {κ : Type} [LinearOrder κ] {α : Type}

/-- `map.find(k)` on an association list sorted by key. -/
def mapFind (k : κ) : List (κ × α) → Option α
  | [] => none
  | p :: rest => if p.1 = k then some p.2 else mapFind k rest

/-- `map.emplace(k, v)`: insert at the ordered position; a key already
present (neither strictly smaller nor strictly larger) is left as is. -/
def mapEmplace (k : κ) (v : α) : List (κ × α) → List (κ × α)
  | [] => [(k, v)]
  | p :: rest =>
    if k < p.1 then (k, v) :: p :: rest
    else if p.1 < k then p :: mapEmplace k v rest
    else p :: rest

/-- In-place mutation of `map.at(k)` (replace the mapped value of the
binding of `k`). -/
def mapUpdate (k : κ) (v : α) : List (κ × α) → List (κ × α)
  | [] => []
  | p :: rest => if p.1 = k then (p.1, v) :: rest else p :: mapUpdate k v rest

/-- The `std::map` representation invariant: keys strictly increasing. -/
abbrev SortedKeys : List (κ × α) → Prop :=
  List.Pairwise (fun a b => a.1 < b.1)

end OrderedMap

/-! ## The Table: class `DataFrame<T>` (DataFrame.h lines 202-476, 568-776) -/

/-- `DataFrame<T>`: the three data members (lines 215-222). -/
structure DataFrame (T : Type) where
  formats : List (String → Option PTime)
  assetsToFeatures : List (String × List String)
  data : List (PTime × Data T)

/-- Result of a `fromCSV` call.  `fromCSV` is declared `noexcept`
(lines 427, 654), so an exception thrown inside it calls
`std::terminate` instead of reaching the caller.  `fileOpenTerminate`
is the unopenable-file path (lines 660-664): the diagnostic is printed
and `throw std::exception()` executes inside the `noexcept` function,
terminating the program.  `terminated` is the `std::out_of_range` of a
checked `.at` access escaping a `noexcept` member, likewise
`std::terminate`.  Neither is catchable and neither leaves an
observable table; only `ok` returns to a running caller. -/
inductive Outcome (T : Type) where
  | ok (df : DataFrame T)
  | fileOpenTerminate
  | terminated

namespace DataFrame

/-- `DataFrame<T>::DataFrame()`: empty table, `formats` initialized with
the three defaults. -/
def new (T : Type) : DataFrame T := ⟨defaultFormats, [], []⟩

/-- `DataFrame<T>::size()`: number of dates held. -/
def size {T : Type} (df : DataFrame T) : Nat := df.data.length

/-- `DataFrame<T>::containsAsset(asset)` (lines 609-612). -/
def containsAsset {T : Type} (df : DataFrame T) (asset : String) : Bool :=
  (findVal asset df.assetsToFeatures).isSome

/-- `DataFrame<T>::containsDate(date)` (lines 615-618). -/
def containsDate {T : Type} (df : DataFrame T) (date : PTime) : Bool :=
  (mapFind date df.data).isSome

/-- `DataFrame<T>::addDateFormat(format)` (lines 629-632): appends one
pattern to the `formats` vector. -/
def addDateFormat {T : Type} (df : DataFrame T) (f : String → Option PTime) : DataFrame T :=
  { df with formats := df.formats ++ [f] }

/-- Bulk `addDateFormat` overload (lines 636-641). -/
def addDateFormats {T : Type} (df : DataFrame T) (fs : List (String → Option PTime)) : DataFrame T :=
  fs.foldl addDateFormat df

/-- `std::unordered_set<std::string>(features.begin(), features.end())`:
the feature list collapsed to a duplicate-free list. -/
def toFeatureSet (l : List String) : List String :=
  l.foldl (fun acc x => if x ∈ acc then acc else acc ++ [x]) []

/-- The loop body of `DataFrame<T>::insertData` (lines 712-718): for
each index `i < features.size()` — the recursion walks the remaining
features, carrying the running index — it reads `rowData.at(i)`, a
checked access that throws `std::out_of_range` when
`i ≥ rowData.size()`, which escapes the `noexcept` function (modelled
as `none`), converts it, and calls `setData` under the i-th feature. -/
def insertDataFrom {T : Type} (conv : String → T) (asset : String) (rowData : List String) :
    Data T → List String → Nat → Option (Data T)
  | dataObj, [], _ => some dataObj
  | dataObj, feat :: fs, i =>
    match rowData[i]? with
    | none => none
    | some raw =>
      insertDataFrom conv asset rowData (dataObj.setData asset feat (conv raw)) fs (i + 1)

/-- `DataFrame<T>::insertData(dataObj, asset, features, rowData)`
(lines 712-718).  `conv` is `DataFrame<T>::convert` (lines 702-708),
the `istringstream`-based conversion determined by `T`. -/
def insertData {T : Type} (conv : String → T) (dataObj : Data T) (asset : String)
    (features rowData : List String) : Option (Data T) :=
  insertDataFrom conv asset rowData dataObj features 0

/-- Lines 692-695 of `fromCSV`: if the parsed date has no entry in the
map yet, emplace a fresh empty Row Store under it. -/
def ensureDate {T : Type} (date : PTime) (data : List (PTime × Data T)) :
    List (PTime × Data T) :=
  match mapFind date data with
  | none => mapEmplace date (Data.emptyData T) data
  | some _ => data

/-- The per-data-row loop of `fromCSV` (lines 676-698): split the row
into timestamp text (first token) and positional values (the rest),
parse the date, emplace an empty Row Store if the date is new, and
merge the row's values into the Row Store at that date. -/
def processRows {T : Type} (conv : String → T) (asset : String) (features : List String) :
    DataFrame T → List (List String) → Outcome T
  | df, [] => .ok df
  | df, row :: rest =>
    match mapFind (parseDate df.formats (row.headD ""))
        (ensureDate (parseDate df.formats (row.headD "")) df.data) with
    | none => Outcome.terminated
    | some dataObj =>
      match insertData conv dataObj asset features (row.drop 1) with
      | none => Outcome.terminated
      | some dataObj2 =>
        processRows conv asset features
          { df with data := (mapUpdate (parseDate df.formats (row.headD "")) dataObj2
              (ensureDate (parseDate df.formats (row.headD "")) df.data)) } rest

/-- `DataFrame<T>::fromCSV(asset, path)` (lines 654-699).  The file is
given as `none` when the `ifstream` cannot open the path, otherwise as
the list of the file's lines, each already sanitized and tokenized
(header line first; its first token, the ignored corner cell, is
dropped and the remaining tokens are the feature list). -/
def fromCSV {T : Type} (conv : String → T) (df : DataFrame T) (asset : String)
    (file : Option (List (List String))) : Outcome T :=
  if (findVal asset df.assetsToFeatures).isSome then Outcome.ok df
  else
    match file with
    | none => Outcome.fileOpenTerminate
    | some rows =>
      processRows conv asset ((rows.headD []).drop 1)
        { df with assetsToFeatures :=
            df.assetsToFeatures ++ [(asset, toFeatureSet ((rows.headD []).drop 1))] }
        (rows.drop 1)

/-- `DataFrame<T>::removeEmptyDates()` (lines 722-731): the erase loop,
keeping exactly the entries whose Row Store is non-empty. -/
def removeEmptyAux {T : Type} : List (PTime × Data T) → List (PTime × Data T)
  | [] => []
  | p :: rest => if p.2.empty then removeEmptyAux rest else p :: removeEmptyAux rest

/-- `DataFrame<T>::removeEmptyDates()` (lines 722-731). -/
def removeEmptyDates {T : Type} (df : DataFrame T) : DataFrame T :=
  { df with data := removeEmptyAux df.data }

/-- `DataFrame<T>::fillInGaps()` (lines 734-738): the body is a TODO
comment, so the call leaves the table unchanged. -/
def fillInGaps {T : Type} (df : DataFrame T) : DataFrame T := df

/-- `DataFrame<T>::getData(date, asset, feature)` (lines 742-749).
When the timestamp is present the nested Row Store answers; when it is
absent the code runs `T t; return t;` (lines 747-748) — DEFAULT
initialization, not the value initialization `T temp {};` used by
`Data<T>::getData` — so for a scalar `T` (the repository instantiates
`DataFrame<double>`) `t` is indeterminate and reading it is undefined
behaviour.  The model makes that unspecified result an explicit
parameter `junk`: the function returns whatever value the
uninitialized object happens to hold. -/
def getData {T : Type} [Inhabited T] (junk : T) (df : DataFrame T) (date : PTime)
    (asset feature : String) : T :=
  match mapFind date df.data with
  | some dataObj => dataObj.getData asset feature
  | none => junk

/-- The lookup table `static const int t[]` of `getDayOfWeek`. -/
def sakamotoTable : List Nat := [0, 3, 2, 5, 0, 3, 5, 1, 4, 6, 2, 4]

/-- `DataFrame<T>::getDayOfWeek(date)` (lines 768-776), on the calendar
fields of a valid timestamp: `year -= (month < 3)`, then
`(year + year/4 - year/100 + year/400 + t[month-1] + day) % 7`
(all quantities are non-negative, so C++ `int` arithmetic and `Nat`
arithmetic agree on valid dates). -/
def getDayOfWeek (t : Timestamp) : Nat :=
  let year := if t.month < 3 then t.year - 1 else t.year
  (year + year / 4 - year / 100 + year / 400 + sakamotoTable.getD (t.month - 1) 0 + t.day) % 7

/-- Forward iteration (`begin()`/`end()`, lines 318, 349): the entries
in stored order; an `std::map` iterates in key order. -/
def iterKeys {T : Type} (df : DataFrame T) : List PTime := df.data.map Prod.fst

/-- Reverse iteration (`rbegin()`/`rend()`, lines 326, 356). -/
def reverseIterKeys {T : Type} (df : DataFrame T) : List PTime := df.data.reverse.map Prod.fst

/-- Well-formedness: the `std::map` keeps its keys strictly sorted. -/
abbrev WF {T : Type} (df : DataFrame T) : Prop := SortedKeys df.data

/-- Well-formedness of an outcome: whatever table the call left behind
is well-formed (a terminated process has no table left, so both
termination paths carry no obligation). -/
def OutcomeWF {T : Type} : Outcome T → Prop
  | .ok df => df.WF
  | .fileOpenTerminate => True
  | .terminated => True

end DataFrame

/-! ## Lemmas about the association-list primitives -/

theorem findVal_updateVal_self {α : Type} {k : String} {v : α} {l : List (String × α)} {w : α}
    (h : findVal k l = some w) : findVal k (updateVal k v l) = some v := by
  induction l with
  | nil => simp [findVal] at h
  | cons p rest ih =>
    obtain ⟨k1, v1⟩ := p
    by_cases hk : k1 = k
    · subst hk
      simp [findVal, updateVal]
    · simp only [findVal, updateVal, if_neg hk] at h ⊢
      exact ih h

theorem findVal_updateVal_ne {α : Type} {j k : String} (v : α) (l : List (String × α))
    (h : k ≠ j) : findVal j (updateVal k v l) = findVal j l := by
  induction l with
  | nil => simp [updateVal]
  | cons p rest ih =>
    obtain ⟨k1, v1⟩ := p
    by_cases hk : k1 = k
    · subst hk
      simp only [updateVal, if_pos rfl, findVal, if_neg h]
    · simp only [updateVal, if_neg hk, findVal]
      by_cases hj : k1 = j
      · simp [if_pos hj]
      · simp only [if_neg hj]
        exact ih

namespace Data

theorem getData_eq {T : Type} [Inhabited T] (d : Data T) (A F : String) :
    d.getData A F = (d.lookupPair A F).getD default := by
  obtain ⟨l⟩ := d
  cases l with
  | nil => rfl
  | cons p rest =>
    show (if (p :: rest).isEmpty then _ else _) = _
    simp only [List.isEmpty_cons, if_false, Bool.false_eq_true]
    unfold lookupPair
    cases hA : findVal A (p :: rest) with
    | none => simp [hA]
    | some tm =>
      simp only [hA]
      cases hF : findVal F tm <;> simp [hF]

theorem lookupPair_nonempty {T : Type} {d : Data T} {A F : String} {v : T}
    (h : d.lookupPair A F = some v) : d.data ≠ [] := by
  intro hnil
  rw [lookupPair, hnil] at h
  simp [findVal] at h

/-- After `setData` on an absent pair, the pair is bound to the value. -/
theorem lookupPair_setData_absent {T : Type} (d : Data T) (A F : String) (V : T)
    (habs : d.lookupPair A F = none) :
    (d.setData A F V).lookupPair A F = some V := by
  simp only [lookupPair] at habs ⊢
  simp only [setData]
  cases hA : findVal A d.data with
  | none =>
    simp only [hA]
    simp [findVal]
  | some tm =>
    simp only [hA] at habs ⊢
    simp only [habs]
    show (match findVal A (updateVal A ((F, V) :: tm) d.data) with
      | some fm => findVal F fm
      | none => none) = some V
    rw [findVal_updateVal_self hA]
    simp [findVal]

/-- A bound pair survives any later `setData`, whatever its keys and
value: `setData` never overwrites. -/
theorem lookupPair_setData_preserved {T : Type} {d : Data T} {A F : String} {v : T}
    (h : d.lookupPair A F = some v) (A' F' : String) (V' : T) :
    (d.setData A' F' V').lookupPair A F = some v := by
  simp only [lookupPair] at h ⊢
  cases hA : findVal A d.data with
  | none => simp only [hA] at h; cases h
  | some fm =>
    simp only [hA] at h
    simp only [setData]
    cases hA' : findVal A' d.data with
    | none =>
      have hne : A' ≠ A := fun he => by rw [he, hA] at hA'; cases hA'
      simp only [hA']
      simp only [findVal, if_neg hne, hA, h]
    | some tm =>
      simp only [hA']
      cases hF' : findVal F' tm with
      | some w => simp only [hF', hA, h]
      | none =>
        simp only [hF']
        by_cases he : A' = A
        · subst he
          rw [hA] at hA'
          obtain rfl : fm = tm := by injection hA'
          have hne : F' ≠ F := fun hfe => by rw [hfe, h] at hF'; cases hF'
          show (match findVal A' (updateVal A' ((F', V') :: fm) d.data) with
            | some fm2 => findVal F fm2
            | none => none) = some v
          rw [findVal_updateVal_self hA]
          simp only [findVal, if_neg hne, h]
        · show (match findVal A (updateVal A' ((F', V') :: tm) d.data) with
            | some fm2 => findVal F fm2
            | none => none) = some v
          rw [findVal_updateVal_ne _ _ he, hA]
          exact h

end Data

/-- C1: on a Row Store, `setData(A,F,V)` on an absent pair `(A,F)` makes
`getData(A,F)` return `V`; a second `setData(A,F,V2)` with `V2 ≠ V`
leaves `getData(A,F) == V`; and, in general, a pair once set is never
overwritten by any later `setData` call, whatever its arguments
(first write wins). -/
theorem Data.setData_first_write_wins {T : Type} [Inhabited T] :
    (∀ (s : Data T) (A F : String) (V : T), s.lookupPair A F = none →
      (s.setData A F V).getData A F = V) ∧
    (∀ (s : Data T) (A F : String) (V V2 : T), s.lookupPair A F = none → V2 ≠ V →
      ((s.setData A F V).setData A F V2).getData A F = V) ∧
    (∀ (s : Data T) (A F : String) (v : T), s.lookupPair A F = some v →
      ∀ (A' F' : String) (V' : T), (s.setData A' F' V').getData A F = s.getData A F) := by
  refine ⟨?_, ?_, ?_⟩
  · intro s A F V habs
    rw [Data.getData_eq, Data.lookupPair_setData_absent s A F V habs]
    rfl
  · intro s A F V V2 habs _
    have h1 := Data.lookupPair_setData_absent s A F V habs
    have h2 := Data.lookupPair_setData_preserved h1 A F V2
    rw [Data.getData_eq, h2]
    rfl
  · intro s A F v h A' F' V'
    rw [Data.getData_eq, Data.getData_eq, Data.lookupPair_setData_preserved h A' F' V', h]

/-- Witness for C1 at a concrete store: `T = Int`, one prior binding
`("B","Close") ↦ 7`; the pair `("A","Open")` is absent, is set to 5,
and survives a second write of 9. -/
theorem Data.setData_first_write_wins_witness :
    ((Data.mk [("B", [("Close", (7 : Int))])]).lookupPair "A" "Open" = none ∧
      ((Data.mk [("B", [("Close", (7 : Int))])]).setData "A" "Open" 5).getData "A" "Open" = 5) ∧
    (((Data.mk [("B", [("Close", (7 : Int))])]).setData "A" "Open" 5).setData "A" "Open" 9).getData "A" "Open" = 5 ∧
    ((Data.mk [("B", [("Close", (7 : Int))])]).setData "B" "Close" 9).getData "B" "Close" =
      (Data.mk [("B", [("Close", (7 : Int))])]).getData "B" "Close" := by
  refine ⟨⟨by decide, ?_⟩, ?_, ?_⟩
  · exact (Data.setData_first_write_wins).1 (Data.mk [("B", [("Close", (7 : Int))])])
      "A" "Open" 5 (by decide)
  · exact (Data.setData_first_write_wins).2.1 (Data.mk [("B", [("Close", (7 : Int))])])
      "A" "Open" 5 9 (by decide) (by decide)
  · exact (Data.setData_first_write_wins).2.2 (Data.mk [("B", [("Close", (7 : Int))])])
      "B" "Close" 7 (by decide) "B" "Close" 9

/-- C5 (the claim matches the functions' own doc comments; the code has
a bug in one branch): at Row Store level the claim holds — `getData`
returns the stored value for a present `(asset, feature)` pair and the
value-initialized default (`T temp {};`, line 547) for an absent one,
missing asset and missing feature alike.  At Table level a present
timestamp delegates to its Row Store, so those absences also yield the
default; but the missing-timestamp branch runs `T t; return t;`
(lines 747-748) — default-initialization, indeterminate for the scalar
instantiation — so the value returned there is whatever the
uninitialized object holds (`junk`), NOT necessarily the type's
zero/default, contradicting the claim and the function's own doc
comment ("otherwise return the default empty value of type T",
lines 442-448). -/
theorem getData_absent_behavior {T : Type} [Inhabited T] :
    (∀ (s : Data T) (A F : String) (v : T), s.lookupPair A F = some v → s.getData A F = v) ∧
    (∀ (s : Data T) (A F : String), s.lookupPair A F = none → s.getData A F = default) ∧
    (∀ (junk : T) (df : DataFrame T) (date : PTime) (A F : String) (rs : Data T),
      mapFind date df.data = some rs →
      DataFrame.getData junk df date A F = rs.getData A F) ∧
    (∀ (junk : T) (df : DataFrame T) (date : PTime) (A F : String),
      mapFind date df.data = none → DataFrame.getData junk df date A F = junk) := by
  refine ⟨?_, ?_, ?_, ?_⟩
  · intro s A F v h
    rw [Data.getData_eq, h]
    rfl
  · intro s A F h
    rw [Data.getData_eq, h]
    rfl
  · intro junk df date A F rs h
    simp only [DataFrame.getData, h]
  · intro junk df date A F h
    simp only [DataFrame.getData, h]

/-- Witness for C5 on a one-date table holding `("A","Open") ↦ 5` at
2020-01-01: the stored value is returned; a missing feature, missing
asset, or (with a present timestamp) any Row-Store absence yields the
value-initialized 0; but a missing timestamp returns the indeterminate
stack value — here 7, demonstrably not the zero/default. -/
theorem getData_absent_behavior_witness :
    ((Data.mk [("A", [("Open", (5 : Int))])]).getData "A" "Open" = 5 ∧
      (Data.mk [("A", [("Open", (5 : Int))])]).getData "A" "Close" = 0 ∧
      (Data.mk [("A", [("Open", (5 : Int))])]).getData "B" "Open" = 0) ∧
    (DataFrame.getData (7 : Int)
      (DataFrame.mk defaultFormats [("A", ["Open"])]
        [(PTime.val ⟨2020, 1, 1, 0, 0, 0⟩, Data.mk [("A", [("Open", (5 : Int))])])])
      (PTime.val ⟨2020, 1, 1, 0, 0, 0⟩) "B" "Open" = 0) ∧
    (DataFrame.getData (7 : Int)
      (DataFrame.mk defaultFormats [("A", ["Open"])]
        [(PTime.val ⟨2020, 1, 1, 0, 0, 0⟩, Data.mk [("A", [("Open", (5 : Int))])])])
      PTime.notADateTime "A" "Open" = 7 ∧ (7 : Int) ≠ 0) := by
  refine ⟨⟨?_, ?_, ?_⟩, ?_, ?_, by decide⟩
  · exact (getData_absent_behavior).1 (Data.mk [("A", [("Open", (5 : Int))])])
      "A" "Open" 5 (by decide)
  · exact (getData_absent_behavior).2.1 (Data.mk [("A", [("Open", (5 : Int))])])
      "A" "Close" (by decide)
  · exact (getData_absent_behavior).2.1 (Data.mk [("A", [("Open", (5 : Int))])])
      "B" "Open" (by decide)
  · rw [(getData_absent_behavior).2.2.1 (7 : Int)
      (DataFrame.mk defaultFormats [("A", ["Open"])]
        [(PTime.val ⟨2020, 1, 1, 0, 0, 0⟩, Data.mk [("A", [("Open", (5 : Int))])])])
      (PTime.val ⟨2020, 1, 1, 0, 0, 0⟩) "B" "Open"
      (Data.mk [("A", [("Open", (5 : Int))])]) (by decide)]
    exact (getData_absent_behavior).2.1 (Data.mk [("A", [("Open", (5 : Int))])])
      "B" "Open" (by decide)
  · exact (getData_absent_behavior).2.2.2 (7 : Int)
      (DataFrame.mk defaultFormats [("A", ["Open"])]
        [(PTime.val ⟨2020, 1, 1, 0, 0, 0⟩, Data.mk [("A", [("Open", (5 : Int))])])])
      PTime.notADateTime "A" "Open" (by decide)

/-! ## removeEmptyDates -/

theorem removeEmptyAux_eq_filter {T : Type} (l : List (PTime × Data T)) :
    DataFrame.removeEmptyAux l = l.filter (fun p => !p.2.empty) := by
  induction l with
  | nil => rfl
  | cons p rest ih =>
    simp only [DataFrame.removeEmptyAux, List.filter_cons, ih]
    cases hp : p.2.empty <;> simp

theorem mem_removeEmptyAux {T : Type} (l : List (PTime × Data T)) (p : PTime × Data T) :
    p ∈ DataFrame.removeEmptyAux l ↔ p ∈ l ∧ p.2.empty = false := by
  rw [removeEmptyAux_eq_filter, List.mem_filter]
  simp

/-- C8: `removeEmptyDates()` keeps exactly the timestamps whose Row
Store is non-empty, with their contents unchanged; the sorted-key
ordering is preserved; and on a table with one empty-Row-Store
timestamp and one non-empty one it leaves size 1 with the non-empty
timestamp surviving. -/
theorem removeEmptyDates_spec {T : Type} :
    (∀ (df : DataFrame T) (p : PTime × Data T),
      p ∈ (df.removeEmptyDates).data ↔ p ∈ df.data ∧ p.2.empty = false) ∧
    (∀ df : DataFrame T, df.WF → (df.removeEmptyDates).WF) ∧
    (∀ (fmts : List (String → Option PTime)) (afs : List (String × List String))
        (t1 t2 : PTime) (rs : Data T), rs.empty = false →
      (DataFrame.mk fmts afs [(t1, Data.emptyData T), (t2, rs)]).removeEmptyDates =
        DataFrame.mk fmts afs [(t2, rs)] ∧
      ((DataFrame.mk fmts afs [(t1, Data.emptyData T), (t2, rs)]).removeEmptyDates).size = 1) := by
  refine ⟨?_, ?_, ?_⟩
  · intro df p
    exact mem_removeEmptyAux df.data p
  · intro df h
    show SortedKeys (DataFrame.removeEmptyAux df.data)
    rw [removeEmptyAux_eq_filter]
    exact h.filter _
  · intro fmts afs t1 t2 rs hrs
    constructor
    · show DataFrame.mk fmts afs
        (DataFrame.removeEmptyAux [(t1, Data.emptyData T), (t2, rs)]) = _
      simp only [DataFrame.removeEmptyAux]
      have he : (Data.emptyData T).empty = true := rfl
      rw [he, hrs]
      simp
    · show (DataFrame.removeEmptyAux [(t1, Data.emptyData T), (t2, rs)]).length = 1
      simp only [DataFrame.removeEmptyAux]
      have he : (Data.emptyData T).empty = true := rfl
      rw [he, hrs]
      simp

/-- Witness for C8 on a concrete table over `Int`: 2020-01-01 holds an
empty Row Store, 2020-01-02 holds one asset; pruning keeps only the
second. -/
theorem removeEmptyDates_spec_witness :
    ((DataFrame.mk defaultFormats [("A", ["Open"])]
        [(PTime.val ⟨2020, 1, 1, 0, 0, 0⟩, Data.emptyData Int),
         (PTime.val ⟨2020, 1, 2, 0, 0, 0⟩, Data.mk [("A", [("Open", (5 : Int))])])]).removeEmptyDates =
      DataFrame.mk defaultFormats [("A", ["Open"])]
        [(PTime.val ⟨2020, 1, 2, 0, 0, 0⟩, Data.mk [("A", [("Open", (5 : Int))])])] ∧
     (DataFrame.mk defaultFormats [("A", ["Open"])]
        [(PTime.val ⟨2020, 1, 1, 0, 0, 0⟩, Data.emptyData Int),
         (PTime.val ⟨2020, 1, 2, 0, 0, 0⟩, Data.mk [("A", [("Open", (5 : Int))])])]).removeEmptyDates.size = 1) ∧
    ((PTime.val ⟨2020, 1, 2, 0, 0, 0⟩, Data.mk [("A", [("Open", (5 : Int))])]) ∈
      ((DataFrame.mk defaultFormats [("A", ["Open"])]
        [(PTime.val ⟨2020, 1, 1, 0, 0, 0⟩, Data.emptyData Int),
         (PTime.val ⟨2020, 1, 2, 0, 0, 0⟩, Data.mk [("A", [("Open", (5 : Int))])])]).removeEmptyDates).data ↔
      ((PTime.val ⟨2020, 1, 2, 0, 0, 0⟩, Data.mk [("A", [("Open", (5 : Int))])]) ∈
        [(PTime.val ⟨2020, 1, 1, 0, 0, 0⟩, Data.emptyData Int),
         (PTime.val ⟨2020, 1, 2, 0, 0, 0⟩, Data.mk [("A", [("Open", (5 : Int))])])] ∧
       (Data.mk [("A", [("Open", (5 : Int))])]).empty = false)) := by
  constructor
  · exact (removeEmptyDates_spec).2.2 defaultFormats [("A", ["Open"])]
      (PTime.val ⟨2020, 1, 1, 0, 0, 0⟩) (PTime.val ⟨2020, 1, 2, 0, 0, 0⟩)
      (Data.mk [("A", [("Open", (5 : Int))])]) (by decide)
  · exact (removeEmptyDates_spec).1 _ _

/-- C10: `removeEmptyDates` is idempotent — after one pass no empty Row
Store remains, so a second immediate pass changes nothing. -/
theorem removeEmptyDates_idempotent {T : Type} (df : DataFrame T) :
    (df.removeEmptyDates).removeEmptyDates = df.removeEmptyDates := by
  have h : ∀ l : List (PTime × Data T),
      DataFrame.removeEmptyAux (DataFrame.removeEmptyAux l) = DataFrame.removeEmptyAux l := by
    intro l
    rw [removeEmptyAux_eq_filter, removeEmptyAux_eq_filter]
    simp [List.filter_filter]
  simp only [DataFrame.removeEmptyDates]
  rw [h]

/-! ## Day of the week -/

/-- Days strictly before month `m` in year `y` (1-indexed month),
from cumulative month lengths and the leap-day adjustment. -/
def daysBeforeMonth (y m : Nat) : Nat :=
  [0, 0, 31, 59, 90, 120, 151, 181, 212, 243, 273, 304, 334].getD m 0 +
    (if 3 ≤ m ∧ isLeapYear y then 1 else 0)

/-- Reference day of the week (0 = Sunday), independent of the code
under verification: day 1 of year 1 of the proleptic Gregorian calendar
is a Monday, and the weekday advances by one per elapsed day, the days
counted from whole elapsed years (with the Gregorian leap rule) plus
the elapsed months plus the elapsed days. -/
def dayOfWeekRef (y m d : Nat) : Nat :=
  (1 + 365 * (y - 1) + (y - 1) / 4 - (y - 1) / 100 + (y - 1) / 400 +
    daysBeforeMonth y m + (d - 1)) % 7

theorem isLeapYear_iff (y : Nat) :
    isLeapYear y = true ↔ ((y % 4 = 0 ∧ y % 100 ≠ 0) ∨ y % 400 = 0) := by
  simp [isLeapYear]

theorem div4succ (x : Nat) :
    ((x + 1) % 4 = 0 ∧ (x + 1) / 4 = x / 4 + 1) ∨ ((x + 1) % 4 ≠ 0 ∧ (x + 1) / 4 = x / 4) := by
  omega

theorem div100succ (x : Nat) :
    ((x + 1) % 100 = 0 ∧ (x + 1) / 100 = x / 100 + 1) ∨ ((x + 1) % 100 ≠ 0 ∧ (x + 1) / 100 = x / 100) := by
  omega

theorem div400succ (x : Nat) :
    ((x + 1) % 400 = 0 ∧ (x + 1) / 400 = x / 400 + 1) ∨ ((x + 1) % 400 ≠ 0 ∧ (x + 1) / 400 = x / 400) := by
  omega

set_option maxHeartbeats 2000000 in
/-- C9: on every valid date, `getDayOfWeek` computes the day of the week
in the Sunday-first mapping 0..6 (it agrees with the independent
calendar count `dayOfWeekRef`); in particular 2020-01-01 ↦ 3
(Wednesday) and 2000-01-01 ↦ 6 (Saturday). -/
theorem getDayOfWeek_correct :
    (∀ t : Timestamp, 1 ≤ t.year → 1 ≤ t.month → t.month ≤ 12 →
      1 ≤ t.day → t.day ≤ daysInMonth t.year t.month →
      DataFrame.getDayOfWeek t = dayOfWeekRef t.year t.month t.day) ∧
    DataFrame.getDayOfWeek ⟨2020, 1, 1, 0, 0, 0⟩ = 3 ∧
    DataFrame.getDayOfWeek ⟨2000, 1, 1, 0, 0, 0⟩ = 6 := by
  refine ⟨?_, by decide, by decide⟩
  intro t hy hm1 hm2 hd1 hd2
  obtain ⟨y, m, d, hh, mi, s⟩ := t
  simp only at hy hm1 hm2 hd1 hd2
  have hleap := isLeapYear_iff y
  obtain ⟨x, rfl⟩ : ∃ x, y = x + 1 := ⟨y - 1, by omega⟩
  unfold DataFrame.getDayOfWeek dayOfWeekRef daysBeforeMonth DataFrame.sakamotoTable
  interval_cases m <;> cases hl : isLeapYear (x + 1) <;> rw [hl] at hleap <;>
    simp at hleap ⊢ <;>
    rcases div4succ x with ⟨h4, e4⟩ | ⟨h4, e4⟩ <;>
    rcases div100succ x with ⟨h100, e100⟩ | ⟨h100, e100⟩ <;>
    rcases div400succ x with ⟨h400, e400⟩ | ⟨h400, e400⟩ <;>
    (try simp only [e4, e100, e400]) <;> omega

/-- Witness for C9 at the concrete leap day 2020-02-29: every validity
hypothesis holds there and the code agrees with the reference count. -/
theorem getDayOfWeek_correct_witness :
    ((1 : Nat) ≤ 2020 ∧ (1 : Nat) ≤ 2 ∧ (2 : Nat) ≤ 12 ∧ (1 : Nat) ≤ 29 ∧
      (29 : Nat) ≤ daysInMonth 2020 2) ∧
    DataFrame.getDayOfWeek ⟨2020, 2, 29, 0, 0, 0⟩ = dayOfWeekRef 2020 2 29 :=
  ⟨⟨by decide, by decide, by decide, by decide, by decide⟩,
   getDayOfWeek_correct.1 ⟨2020, 2, 29, 0, 0, 0⟩ (by decide) (by decide) (by decide)
     (by decide) (by decide)⟩

/-! ## Sortedness of the timestamp map across operations -/

theorem mem_mapEmplace {κ α : Type} [LinearOrder κ] (k : κ) (v : α) (l : List (κ × α))
    (q : κ × α) (h : q ∈ mapEmplace k v l) : q = (k, v) ∨ q ∈ l := by
  induction l with
  | nil =>
    simp only [mapEmplace, List.mem_singleton] at h
    exact Or.inl h
  | cons p rest ih =>
    simp only [mapEmplace] at h
    split_ifs at h with h1 h2
    · exact (List.mem_cons.mp h).imp_right id
    · rcases List.mem_cons.mp h with rfl | h3
      · exact Or.inr (List.mem_cons_self _ _)
      · exact (ih h3).imp_right (fun h4 => List.mem_cons_of_mem _ h4)
    · exact Or.inr h

theorem sortedKeys_mapEmplace {κ α : Type} [LinearOrder κ] (k : κ) (v : α)
    (l : List (κ × α)) (h : SortedKeys l) : SortedKeys (mapEmplace k v l) := by
  induction l with
  | nil => simp [mapEmplace]
  | cons p rest ih =>
    rcases List.pairwise_cons.mp h with ⟨hp, hrest⟩
    simp only [mapEmplace]
    split_ifs with h1 h2
    · refine List.Pairwise.cons ?_ h
      intro q hq
      rcases List.mem_cons.mp hq with rfl | hq2
      · exact h1
      · exact lt_trans h1 (hp q hq2)
    · refine List.Pairwise.cons ?_ (ih hrest)
      intro q hq
      rcases mem_mapEmplace k v rest q hq with rfl | hq2
      · exact h2
      · exact hp q hq2
    · exact h

theorem mapUpdate_map_fst {κ α : Type} [LinearOrder κ] (k : κ) (v : α) (l : List (κ × α)) :
    (mapUpdate k v l).map Prod.fst = l.map Prod.fst := by
  induction l with
  | nil => rfl
  | cons p rest ih =>
    simp only [mapUpdate]
    split_ifs with h1
    · simp
    · simp [ih]

theorem sortedKeys_iff_map {κ α : Type} [LinearOrder κ] (l : List (κ × α)) :
    SortedKeys l ↔ (l.map Prod.fst).Pairwise (fun a b => a < b) := by
  rw [List.pairwise_map]

theorem sortedKeys_mapUpdate {κ α : Type} [LinearOrder κ] (k : κ) (v : α)
    (l : List (κ × α)) (h : SortedKeys l) : SortedKeys (mapUpdate k v l) := by
  rw [sortedKeys_iff_map] at h ⊢
  rw [mapUpdate_map_fst]
  exact h

theorem sortedKeys_ensureDate {T : Type} (date : PTime) (l : List (PTime × Data T))
    (h : SortedKeys l) : SortedKeys (DataFrame.ensureDate date l) := by
  unfold DataFrame.ensureDate
  cases hm : mapFind date l with
  | none => exact sortedKeys_mapEmplace _ _ _ h
  | some obj => exact h

theorem processRows_wf {T : Type} (conv : String → T) (asset : String)
    (features : List String) (df : DataFrame T) (rows : List (List String))
    (h : df.WF) : DataFrame.OutcomeWF (DataFrame.processRows conv asset features df rows) := by
  induction rows generalizing df with
  | nil => exact h
  | cons row rest ih =>
    simp only [DataFrame.processRows]
    split
    · trivial
    · split
      · trivial
      · apply ih
        exact sortedKeys_mapUpdate _ _ _ (sortedKeys_ensureDate _ _ h)

theorem fromCSV_wf {T : Type} (conv : String → T) (df : DataFrame T) (asset : String)
    (file : Option (List (List String))) (h : df.WF) :
    DataFrame.OutcomeWF (DataFrame.fromCSV conv df asset file) := by
  unfold DataFrame.fromCSV
  by_cases hdup : (findVal asset df.assetsToFeatures).isSome
  · simp only [if_pos hdup]
    exact h
  · simp only [if_neg hdup]
    cases file with
    | none => trivial
    | some rows => exact processRows_wf conv asset _ _ (rows.drop 1) h

/-- C2: on every well-formed table, forward iteration visits timestamps
in strictly increasing order, reverse iteration in strictly decreasing
order, and the two traversals visit the same set of timestamps; the
well-formedness invariant holds of a fresh table and is preserved by
every operation (`fromCSV` in all its outcomes, `removeEmptyDates`,
`addDateFormat`, `fillInGaps`). -/
theorem iteration_ordered {T : Type} (conv : String → T) :
    (∀ df : DataFrame T, df.WF →
      df.iterKeys.Pairwise (fun a b => a < b) ∧
      df.reverseIterKeys.Pairwise (fun a b => b < a) ∧
      ∀ k, k ∈ df.iterKeys ↔ k ∈ df.reverseIterKeys) ∧
    (DataFrame.new T).WF ∧
    (∀ (df : DataFrame T) (asset : String) (file : Option (List (List String))),
      df.WF → DataFrame.OutcomeWF (DataFrame.fromCSV conv df asset file)) ∧
    (∀ df : DataFrame T, df.WF → df.removeEmptyDates.WF) ∧
    (∀ (df : DataFrame T) (f : String → Option PTime), df.WF → (df.addDateFormat f).WF) ∧
    (∀ df : DataFrame T, df.WF → df.fillInGaps.WF) := by
  refine ⟨?_, List.Pairwise.nil, ?_, ?_, ?_, ?_⟩
  · intro df h
    refine ⟨?_, ?_, ?_⟩
    · rw [DataFrame.iterKeys]
      exact (sortedKeys_iff_map df.data).mp h
    · rw [DataFrame.reverseIterKeys, List.map_reverse, List.pairwise_reverse]
      exact (sortedKeys_iff_map df.data).mp h
    · intro k
      rw [DataFrame.iterKeys, DataFrame.reverseIterKeys, List.map_reverse, List.mem_reverse]
  · intro df asset file h
    exact fromCSV_wf conv df asset file h
  · intro df h
    show SortedKeys (DataFrame.removeEmptyAux df.data)
    rw [removeEmptyAux_eq_filter]
    exact h.filter _
  · intro df f h
    exact h
  · intro df h
    exact h

/-- Witness for C2 on a concrete two-date table (keys out of
construction order are irrelevant: the stored list is sorted), plus a
concrete `fromCSV`, `removeEmptyDates`, `addDateFormat` and
`fillInGaps` application. -/
theorem iteration_ordered_witness :
    ((DataFrame.mk defaultFormats [("A", ["Open"])]
        [(PTime.notADateTime, Data.emptyData Int),
         (PTime.val ⟨2020, 1, 2, 0, 0, 0⟩, Data.mk [("A", [("Open", (5 : Int))])])]).WF ∧
      ((DataFrame.mk defaultFormats [("A", ["Open"])]
        [(PTime.notADateTime, Data.emptyData Int),
         (PTime.val ⟨2020, 1, 2, 0, 0, 0⟩, Data.mk [("A", [("Open", (5 : Int))])])]).iterKeys.Pairwise
          (fun a b => a < b) ∧
       (DataFrame.mk defaultFormats [("A", ["Open"])]
        [(PTime.notADateTime, Data.emptyData Int),
         (PTime.val ⟨2020, 1, 2, 0, 0, 0⟩, Data.mk [("A", [("Open", (5 : Int))])])]).reverseIterKeys.Pairwise
          (fun a b => b < a) ∧
       ∀ k, k ∈ (DataFrame.mk defaultFormats [("A", ["Open"])]
        [(PTime.notADateTime, Data.emptyData Int),
         (PTime.val ⟨2020, 1, 2, 0, 0, 0⟩, Data.mk [("A", [("Open", (5 : Int))])])]).iterKeys ↔
           k ∈ (DataFrame.mk defaultFormats [("A", ["Open"])]
        [(PTime.notADateTime, Data.emptyData Int),
         (PTime.val ⟨2020, 1, 2, 0, 0, 0⟩, Data.mk [("A", [("Open", (5 : Int))])])]).reverseIterKeys)) ∧
    DataFrame.OutcomeWF (DataFrame.fromCSV (fun s => (s.toNat? : Option Nat).getD 0)
      (DataFrame.new Nat) "A" (some [["Date", "Open"], ["2020-01-02", "11"], ["2020-01-01", "10"]])) ∧
    ((DataFrame.new Int).removeEmptyDates).WF ∧
    ((DataFrame.new Int).addDateFormat fmtYMD).WF ∧
    ((DataFrame.new Int).fillInGaps).WF := by
  refine ⟨⟨by decide, ?_⟩, ?_, ?_, ?_, ?_⟩
  · exact (iteration_ordered (fun s : String => (0 : Int))).1
      (DataFrame.mk defaultFormats [("A", ["Open"])]
        [(PTime.notADateTime, Data.emptyData Int),
         (PTime.val ⟨2020, 1, 2, 0, 0, 0⟩, Data.mk [("A", [("Open", (5 : Int))])])]) (by decide)
  · exact (iteration_ordered (fun s => (s.toNat? : Option Nat).getD 0)).2.2.1
      (DataFrame.new Nat) "A" (some [["Date", "Open"], ["2020-01-02", "11"], ["2020-01-01", "10"]])
      (by decide)
  · exact (iteration_ordered (fun s : String => (0 : Int))).2.2.2.1 (DataFrame.new Int) (by decide)
  · exact (iteration_ordered (fun s : String => (0 : Int))).2.2.2.2.1 (DataFrame.new Int) fmtYMD
      (by decide)
  · exact (iteration_ordered (fun s : String => (0 : Int))).2.2.2.2.2 (DataFrame.new Int) (by decide)


/-! ## Shape of `processRows` results (only `data` is mutated) -/

theorem processRows_shape {T : Type} (conv : String → T) (asset : String)
    (features : List String) (df : DataFrame T) (rows : List (List String)) :
    (∃ d2, DataFrame.processRows conv asset features df rows =
      Outcome.ok { df with data := d2 }) ∨
    DataFrame.processRows conv asset features df rows = Outcome.terminated := by
  induction rows generalizing df with
  | nil => exact Or.inl ⟨df.data, rfl⟩
  | cons row rest ih =>
    simp only [DataFrame.processRows]
    split
    · exact Or.inr rfl
    · split
      · exact Or.inr rfl
      · exact ih _

theorem findVal_append_of_none {α : Type} {k : String} {l : List (String × α)}
    (h : findVal k l = none) (l2 : List (String × α)) :
    findVal k (l ++ l2) = findVal k l2 := by
  induction l with
  | nil => rfl
  | cons p rest ih =>
    simp only [findVal] at h
    split_ifs at h with h1
    simp only [List.cons_append, findVal, if_neg h1]
    exact ih h

/-- After a non-duplicate `fromCSV` returns normally, the asset is
registered in the index. -/
theorem fromCSV_ok_containsAsset {T : Type} (conv : String → T) (df df1 : DataFrame T)
    (asset : String) (file : Option (List (List String)))
    (h : DataFrame.fromCSV conv df asset file = Outcome.ok df1) :
    df1.containsAsset asset = true := by
  unfold DataFrame.fromCSV at h
  by_cases hdup : (findVal asset df.assetsToFeatures).isSome
  · rw [if_pos hdup] at h
    injection h with h2
    subst h2
    exact hdup
  · rw [if_neg hdup] at h
    cases file with
    | none => cases h
    | some rows =>
      simp only [] at h
      rcases processRows_shape conv asset ((rows.headD []).drop 1)
          { df with assetsToFeatures :=
              df.assetsToFeatures ++
                [(asset, DataFrame.toFeatureSet ((rows.headD []).drop 1))] }
          (rows.drop 1) with ⟨d2, h2⟩ | h2
      · rw [h2] at h
        injection h with h3
        subst h3
        show (findVal asset
          (df.assetsToFeatures ++
            [(asset, DataFrame.toFeatureSet ((rows.headD []).drop 1))])).isSome = true
        rw [findVal_append_of_none (Option.not_isSome_iff_eq_none.mp hdup)]
        simp [findVal]
      · rw [h2] at h
        cases h

/-- C6: calling `fromCSV` with an asset name already present in the
asset index returns without raising and without any state change (the
table after the call is the very table before it); consequently a
second `fromCSV` naming the asset of a completed first call — whatever
file it is given — leaves the table exactly as the first call left it. -/
theorem fromCSV_duplicate_asset_noop {T : Type} :
    (∀ (conv : String → T) (df : DataFrame T) (asset : String)
        (file : Option (List (List String))),
      df.containsAsset asset = true →
      DataFrame.fromCSV conv df asset file = Outcome.ok df) ∧
    (∀ (conv conv2 : String → T) (df df1 : DataFrame T) (asset : String)
        (file file2 : Option (List (List String))),
      DataFrame.fromCSV conv df asset file = Outcome.ok df1 →
      DataFrame.fromCSV conv2 df1 asset file2 = Outcome.ok df1) := by
  have part1 : ∀ (conv : String → T) (df : DataFrame T) (asset : String)
      (file : Option (List (List String))),
      df.containsAsset asset = true →
      DataFrame.fromCSV conv df asset file = Outcome.ok df := by
    intro conv df asset file h
    unfold DataFrame.fromCSV
    rw [if_pos (show (findVal asset df.assetsToFeatures).isSome = true from h)]
  refine ⟨part1, ?_⟩
  intro conv conv2 df df1 asset file file2 h
  exact part1 conv2 df1 asset file2 (fromCSV_ok_containsAsset conv df df1 asset file h)

/-- C7 (the claim describes the author's intent, the code has a bug):
the comment at DataFrame.h:663 says "throw exception if file could not
be opened", but `fromCSV` is declared `noexcept` (lines 427, 654), so
the thrown `std::exception` calls `std::terminate` — nothing is ever
catchable and no table state can be observed afterwards.  This theorem
evaluates the code on the failing input: with a new asset and an
unopenable file the call ends in the file-open termination, and that
termination arises from exactly this situation (unopenable file, asset
not yet registered) — never from an openable file. -/
theorem fromCSV_unopenable_terminates {T : Type} :
    (∀ (conv : String → T) (df : DataFrame T) (asset : String),
      df.containsAsset asset = false →
      DataFrame.fromCSV conv df asset none = Outcome.fileOpenTerminate) ∧
    (∀ (conv : String → T) (df : DataFrame T) (asset : String)
        (file : Option (List (List String))),
      DataFrame.fromCSV conv df asset file = Outcome.fileOpenTerminate →
      file = none ∧ df.containsAsset asset = false) := by
  constructor
  · intro conv df asset h
    unfold DataFrame.fromCSV
    rw [if_neg (show ¬(findVal asset df.assetsToFeatures).isSome = true by
      intro hc
      rw [show (findVal asset df.assetsToFeatures).isSome = false from h] at hc
      cases hc)]
  · intro conv df asset file h
    unfold DataFrame.fromCSV at h
    by_cases hdup : (findVal asset df.assetsToFeatures).isSome
    · rw [if_pos hdup] at h
      cases h
    · rw [if_neg hdup] at h
      have hfalse : df.containsAsset asset = false := by
        show (findVal asset df.assetsToFeatures).isSome = false
        revert hdup
        cases (findVal asset df.assetsToFeatures).isSome <;> simp
      cases file with
      | none => exact ⟨rfl, hfalse⟩
      | some rows =>
        simp only [] at h
        rcases processRows_shape conv asset ((rows.headD []).drop 1)
            { df with assetsToFeatures :=
                df.assetsToFeatures ++
                  [(asset, DataFrame.toFeatureSet ((rows.headD []).drop 1))] }
            (rows.drop 1) with ⟨d2, h2⟩ | h2
        · rw [h2] at h
          cases h
        · rw [h2] at h
          cases h

/-- Witness for C6: a table already holding asset "A"; a repeat
`fromCSV` for "A" (with a file, and with an unopenable file) returns
the table unchanged both times. -/
theorem fromCSV_duplicate_asset_noop_witness :
    (DataFrame.mk defaultFormats [("A", ["Open"])] ([] : List (PTime × Data Int))).containsAsset
        "A" = true ∧
    DataFrame.fromCSV (fun _ => (0 : Int))
      (DataFrame.mk defaultFormats [("A", ["Open"])] []) "A"
      (some [["Date", "Close"], ["2020-01-01", "5"]]) =
      Outcome.ok (DataFrame.mk defaultFormats [("A", ["Open"])] []) ∧
    DataFrame.fromCSV (fun _ => (1 : Int))
      (DataFrame.mk defaultFormats [("A", ["Open"])] []) "A" none =
      Outcome.ok (DataFrame.mk defaultFormats [("A", ["Open"])] []) := by
  refine ⟨by decide, ?_, ?_⟩
  · exact (fromCSV_duplicate_asset_noop).1 (fun _ => (0 : Int))
      (DataFrame.mk defaultFormats [("A", ["Open"])] []) "A"
      (some [["Date", "Close"], ["2020-01-01", "5"]]) (by decide)
  · exact (fromCSV_duplicate_asset_noop).2 (fun _ => (0 : Int)) (fun _ => (1 : Int))
      (DataFrame.mk defaultFormats [("A", ["Open"])] [])
      (DataFrame.mk defaultFormats [("A", ["Open"])] []) "A"
      (some [["Date", "Close"], ["2020-01-01", "5"]]) none
      ((fromCSV_duplicate_asset_noop).1 (fun _ => (0 : Int))
        (DataFrame.mk defaultFormats [("A", ["Open"])] []) "A"
        (some [["Date", "Close"], ["2020-01-01", "5"]]) (by decide))

/-- Witness for C7 at the failing input: a fresh table, asset "A"
unknown, unopenable file — the call ends in the file-open
termination. -/
theorem fromCSV_unopenable_terminates_witness :
    ((DataFrame.new Int).containsAsset "A" = false ∧
     DataFrame.fromCSV (fun _ => (0 : Int)) (DataFrame.new Int) "A" none =
       Outcome.fileOpenTerminate) ∧
    ((none : Option (List (List String))) = none ∧
     (DataFrame.new Int).containsAsset "A" = false) := by
  have h1 := (fromCSV_unopenable_terminates).1 (fun _ => (0 : Int)) (DataFrame.new Int) "A"
    (by decide)
  exact ⟨⟨by decide, h1⟩,
    (fromCSV_unopenable_terminates).2 (fun _ => (0 : Int)) (DataFrame.new Int) "A" none h1⟩

/-! ## Date-parsing order and the default-timestamp collision -/

theorem mapFind_mapEmplace_self {κ α : Type} [LinearOrder κ] (k : κ) (v : α)
    (l : List (κ × α)) (h : mapFind k l = none) :
    mapFind k (mapEmplace k v l) = some v := by
  induction l with
  | nil => simp [mapEmplace, mapFind]
  | cons p rest ih =>
    simp only [mapFind] at h
    split_ifs at h with h1
    simp only [mapEmplace]
    split_ifs with h2 h3
    · simp [mapFind]
    · simp only [mapFind, if_neg h1]
      exact ih h
    · exact absurd (le_antisymm (not_lt.mp h2) (not_lt.mp h3)) h1

/-- C4: the timestamp text of every data row is parsed by trying the
registered formats in registration order — a fresh table's list is
exactly the three defaults, and `addDateFormat` appends after them —
accepting the first format whose parse succeeds with a non-default
result; when no format matches, the timestamp stays the
default/invalid value and the row is inserted under that distinguished
key: if a Row Store already sits under it the row merges into that
very store (no new entry), otherwise a fresh store is emplaced under
the default key, so all unparseable rows collide there. -/
theorem parseDate_order_and_default_collision {T : Type} :
    (∀ s : String, parseDate [] s = PTime.notADateTime) ∧
    (∀ (f : String → Option PTime) (fs : List (String → Option PTime)) (s : String)
        (d : PTime), f s = some d → d ≠ PTime.notADateTime → parseDate (f :: fs) s = d) ∧
    (∀ (f : String → Option PTime) (fs : List (String → Option PTime)) (s : String),
      f s = none → parseDate (f :: fs) s = parseDate fs s) ∧
    (DataFrame.new T).formats = defaultFormats ∧
    (∀ (df : DataFrame T) (f : String → Option PTime),
      (df.addDateFormat f).formats = df.formats ++ [f]) ∧
    (∀ (conv : String → T) (asset : String) (features : List String) (df : DataFrame T)
        (row : List String) (rs : Data T),
      parseDate df.formats (row.headD "") = PTime.notADateTime →
      mapFind PTime.notADateTime df.data = some rs →
      DataFrame.processRows conv asset features df [row] =
        (match DataFrame.insertData conv rs asset features (row.drop 1) with
          | none => Outcome.terminated
          | some rs2 =>
            Outcome.ok { df with data := mapUpdate PTime.notADateTime rs2 df.data })) ∧
    (∀ (conv : String → T) (asset : String) (features : List String) (df : DataFrame T)
        (row : List String),
      parseDate df.formats (row.headD "") = PTime.notADateTime →
      mapFind PTime.notADateTime df.data = none →
      DataFrame.processRows conv asset features df [row] =
        (match DataFrame.insertData conv (Data.emptyData T) asset features (row.drop 1) with
          | none => Outcome.terminated
          | some rs2 =>
            Outcome.ok { df with data := (mapUpdate PTime.notADateTime rs2
              (mapEmplace PTime.notADateTime (Data.emptyData T) df.data)) })) := by
  refine ⟨fun s => rfl, ?_, ?_, rfl, fun df f => rfl, ?_, ?_⟩
  · intro f fs s d hf hd
    simp only [parseDate, hf, if_neg hd]
  · intro f fs s hf
    simp only [parseDate, hf]
  · intro conv asset features df row rs hparse hfind
    simp only [DataFrame.processRows, hparse, DataFrame.ensureDate, hfind]
  · intro conv asset features df row hparse hfind
    simp only [DataFrame.processRows, hparse, DataFrame.ensureDate, hfind,
      mapFind_mapEmplace_self PTime.notADateTime (Data.emptyData T) df.data hfind]

/-- Witness for C4: the first default format accepts "2020-01-05"; a
failing format falls through to the rest; and a row with unparseable
date "junk" goes under the default key — merging into the Row Store
already there, or creating one when the key is new. -/
theorem parseDate_order_and_default_collision_witness :
    ((fmtYMD "2020-01-05" = some (PTime.val ⟨2020, 1, 5, 0, 0, 0⟩) ∧
      PTime.val ⟨2020, 1, 5, 0, 0, 0⟩ ≠ PTime.notADateTime ∧
      parseDate (fmtYMD :: [fmtYMDHM, fmtYMDHMS]) "2020-01-05" =
        PTime.val ⟨2020, 1, 5, 0, 0, 0⟩) ∧
     (fmtYMD "junk" = none ∧
      parseDate (fmtYMD :: [fmtYMDHM, fmtYMDHMS]) "junk" =
        parseDate [fmtYMDHM, fmtYMDHMS] "junk")) ∧
    (parseDate defaultFormats "junk" = PTime.notADateTime ∧
     mapFind PTime.notADateTime
       [(PTime.notADateTime, Data.mk [("B", [("Open", (7 : Nat))])])] =
         some (Data.mk [("B", [("Open", (7 : Nat))])]) ∧
     DataFrame.processRows (fun s => s.length) "A" ["Open"]
       (DataFrame.mk defaultFormats []
         [(PTime.notADateTime, Data.mk [("B", [("Open", (7 : Nat))])])]) [["junk", "10"]] =
       (match DataFrame.insertData (fun s => s.length) (Data.mk [("B", [("Open", (7 : Nat))])])
           "A" ["Open"] (["junk", "10"].drop 1) with
         | none => Outcome.terminated
         | some rs2 =>
           Outcome.ok (DataFrame.mk defaultFormats []
             (mapUpdate PTime.notADateTime rs2
               [(PTime.notADateTime, Data.mk [("B", [("Open", (7 : Nat))])])])))) ∧
    (mapFind PTime.notADateTime ([] : List (PTime × Data Nat)) = none ∧
     DataFrame.processRows (fun s => s.length) "A" ["Open"] (DataFrame.new Nat) [["junk", "10"]] =
       (match DataFrame.insertData (fun s => s.length) (Data.emptyData Nat)
           "A" ["Open"] (["junk", "10"].drop 1) with
         | none => Outcome.terminated
         | some rs2 =>
           Outcome.ok (DataFrame.mk defaultFormats []
             (mapUpdate PTime.notADateTime rs2
               (mapEmplace PTime.notADateTime (Data.emptyData Nat) []))))) := by
  refine ⟨⟨⟨by decide, by decide, ?_⟩, by decide, ?_⟩, ⟨by decide, by decide, ?_⟩, by decide, ?_⟩
  · exact (parseDate_order_and_default_collision (T := Nat)).2.1 fmtYMD [fmtYMDHM, fmtYMDHMS]
      "2020-01-05" (PTime.val ⟨2020, 1, 5, 0, 0, 0⟩) (by decide) (by decide)
  · exact (parseDate_order_and_default_collision (T := Nat)).2.2.1 fmtYMD [fmtYMDHM, fmtYMDHMS]
      "junk" (by decide)
  · have h := (parseDate_order_and_default_collision (T := Nat)).2.2.2.2.2.1 (fun s => s.length)
      "A" ["Open"]
      (DataFrame.mk defaultFormats []
        [(PTime.notADateTime, Data.mk [("B", [("Open", (7 : Nat))])])])
      ["junk", "10"] (Data.mk [("B", [("Open", (7 : Nat))])]) (by decide) (by decide)
    rw [h, show DataFrame.insertData (fun s => s.length)
        (Data.mk [("B", [("Open", (7 : Nat))])]) "A" ["Open"] (List.drop 1 ["junk", "10"]) =
      some (Data.mk [("A", [("Open", 2)]), ("B", [("Open", 7)])]) from by decide]
  · have h := (parseDate_order_and_default_collision (T := Nat)).2.2.2.2.2.2 (fun s => s.length)
      "A" ["Open"] (DataFrame.new Nat) ["junk", "10"] (by decide) (by decide)
    rw [h, show DataFrame.insertData (fun s => s.length)
        (Data.emptyData Nat) "A" ["Open"] (List.drop 1 ["junk", "10"]) =
      some (Data.mk [("A", [("Open", 2)])]) from by decide]
    rfl

/-! ## Index-bounded pairing of features and row values -/

/-- Counterexample to the claim that a data row with fewer value tokens
than header features is ingested without error: with header features
`Open, High` and a data row carrying only one value, `insertData`
executes `rowData.at(1)` with `rowData.size() == 1`; the checked access
throws `std::out_of_range` inside a `noexcept` member, so the program
terminates instead of completing the ingestion. -/
theorem fromCSV_short_row_terminates :
    DataFrame.fromCSV (fun s => s.length) (DataFrame.new Nat) "A"
      (some [["Date", "Open", "High"], ["2020-01-01", "10"]]) = Outcome.terminated := by
  rfl

theorem insertDataFrom_short {T : Type} (conv : String → T) (asset : String)
    (rowData : List String) :
    ∀ (fs : List String) (i : Nat) (obj : Data T), rowData.length < i + fs.length →
      i ≤ rowData.length →
      DataFrame.insertDataFrom conv asset rowData obj fs i = none := by
  intro fs
  induction fs with
  | nil =>
    intro i obj h1 h2
    simp at h1
    omega
  | cons feat fs ih =>
    intro i obj h1 h2
    simp only [DataFrame.insertDataFrom]
    rcases Nat.lt_or_ge i rowData.length with hlt | hge
    · rw [List.getElem?_eq_getElem hlt]
      apply ih
      · simp only [List.length_cons] at h1
        omega
      · omega
    · rw [List.getElem?_eq_none (by omega)]

theorem insertDataFrom_long {T : Type} (conv : String → T) (asset : String)
    (rowData extra : List String) :
    ∀ (fs : List String) (i : Nat) (obj : Data T), i + fs.length ≤ rowData.length →
      DataFrame.insertDataFrom conv asset (rowData ++ extra) obj fs i =
        DataFrame.insertDataFrom conv asset rowData obj fs i := by
  intro fs
  induction fs with
  | nil => intro i obj h; rfl
  | cons feat fs ih =>
    intro i obj h
    simp only [List.length_cons] at h
    have hlt : i < rowData.length := by omega
    simp only [DataFrame.insertDataFrom, List.getElem?_append_left hlt]
    rw [List.getElem?_eq_getElem hlt]
    exact ih (i + 1) _ (by omega)

theorem insertDataFrom_ok {T : Type} (conv : String → T) (asset : String)
    (rowData : List String) :
    ∀ (fs : List String) (i : Nat) (obj : Data T), i + fs.length ≤ rowData.length →
      ∃ obj2, DataFrame.insertDataFrom conv asset rowData obj fs i = some obj2 := by
  intro fs
  induction fs with
  | nil => intro i obj h; exact ⟨obj, rfl⟩
  | cons feat fs ih =>
    intro i obj h
    simp only [List.length_cons] at h
    have hlt : i < rowData.length := by omega
    simp only [DataFrame.insertDataFrom]
    rw [List.getElem?_eq_getElem hlt]
    exact ih (i + 1) _ (by omega)

/-- C3 amended: pairing of features and row values is bounded by the
feature count only.  A data row with more value tokens than features
completes with the extra tokens silently ignored (the result is
unchanged by any trailing extras).  A data row with fewer value tokens
than features does NOT complete without error: `insertData` reaches an
index past the end of `rowData`, the checked `rowData.at(i)` throws
`std::out_of_range`, and — every member being `noexcept` — the program
terminates (the trailing features are indeed never set, but because the
whole ingestion dies, not because the row is skipped gracefully). -/
theorem insertData_index_bounded {T : Type} :
    (∀ (conv : String → T) (obj : Data T) (asset : String) (features rowData : List String),
      rowData.length < features.length →
      DataFrame.insertData conv obj asset features rowData = none) ∧
    (∀ (conv : String → T) (obj : Data T) (asset : String) (features rowData : List String),
      features.length ≤ rowData.length →
      ∃ obj2, DataFrame.insertData conv obj asset features rowData = some obj2) ∧
    (∀ (conv : String → T) (obj : Data T) (asset : String) (features rowData extra : List String),
      features.length ≤ rowData.length →
      DataFrame.insertData conv obj asset features (rowData ++ extra) =
        DataFrame.insertData conv obj asset features rowData) := by
  refine ⟨?_, ?_, ?_⟩
  · intro conv obj asset features rowData h
    exact insertDataFrom_short conv asset rowData features 0 obj (by omega) (by omega)
  · intro conv obj asset features rowData h
    exact insertDataFrom_ok conv asset rowData features 0 obj (by omega)
  · intro conv obj asset features rowData extra h
    exact insertDataFrom_long conv asset rowData extra features 0 obj (by omega)

/-- Witness for the amended C3: with features `Open, High` and a single
value token the loop aborts (`none` = out-of-range termination); with
one feature and extra tokens the extras change nothing. -/
theorem insertData_index_bounded_witness :
    (["10"].length < ["Open", "High"].length ∧
     DataFrame.insertData (fun s => s.length) (Data.emptyData Nat) "A"
       ["Open", "High"] ["10"] = none) ∧
    (["Open"].length ≤ ["10", "77"].length ∧
     DataFrame.insertData (fun s => s.length) (Data.emptyData Nat) "A"
       ["Open"] (["10", "77"] ++ ["88"]) =
       DataFrame.insertData (fun s => s.length) (Data.emptyData Nat) "A"
         ["Open"] ["10", "77"]) := by
  refine ⟨⟨by decide, ?_⟩, by decide, ?_⟩
  · exact (insertData_index_bounded).1 (fun s => s.length) (Data.emptyData Nat) "A"
      ["Open", "High"] ["10"] (by decide)
  · exact (insertData_index_bounded).2.2 (fun s => s.length) (Data.emptyData Nat) "A"
      ["Open"] ["10", "77"] ["88"] (by decide)
